import Mathlib

/-!
Verification of the `prompt_builder` directory-scanning utility
(`src/main.rs`).  Texts are modelled as `List Char`; the filesystem and
the output streams are modelled explicitly (an `Entry` per directory
entry, an `Event` per emitted line, with the channel each event is
written to).  The two subcommands `tokenize_directory` and
`build_prompt_directory` are embedded as pure functions from those
inputs to the ordered list of events they emit.
-/

set_option autoImplicit false

namespace PromptBuilder

/-- Strip one trailing carriage return, as Rust `str::lines` does to every
newline-terminated segment (the CR is removed only when it immediately
precedes the terminating newline). -/
def stripCR (l : List Char) : List Char :=
  if l.getLast? = some '\r' then l.dropLast else l

/-- Accumulator worker for Rust `str::lines`: `cur` holds the characters of
the current line in reverse.  Each newline terminates a segment (whose one
trailing CR is stripped); a final unterminated segment still counts as a
line, but a final empty segment does not. -/
def linesAux : List Char → List Char → List (List Char)
  | cur, [] => if cur.isEmpty then [] else [cur.reverse]
  | cur, c :: rest =>
    if c = '\n' then stripCR cur.reverse :: linesAux [] rest
    else linesAux (c :: cur) rest

/-- Rust `str::lines` over a list of characters (`contents.lines()` in
`tokenize_directory` and `build_prompt_directory`). -/
def rustLines (s : List Char) : List (List Char) := linesAux [] s

/-- Rust `str::contains` with a literal substring pattern
(`line.contains(substr)`): `sub` occurs contiguously inside `line`. -/
def strContains (line sub : List Char) : Bool := decide (sub <:+: line)

/-- The per-line skip test of both modes:
`skip_substrings.iter().any(|substr| line.contains(substr))`. -/
def lineMatches (skips : List (List Char)) (line : List Char) : Bool :=
  skips.any (fun sub => strContains line sub)

/-- Rust `Vec::join("\n")`: the segments with a single newline between
consecutive ones. -/
def joinLines : List (List Char) → List Char
  | [] => []
  | [l] => l
  | l :: l' :: ls => l ++ '\n' :: joinLines (l' :: ls)

/-- The line-filtering step both modes perform on file contents
(`main.rs` lines 146-156 and 228-238): with no skip substrings the
contents pass through unchanged, otherwise the lines that contain any
skip substring are dropped and the survivors rejoined with newlines. -/
def lineFilter (skips : List (List Char)) (contents : List Char) : List Char :=
  if skips.isEmpty then contents
  else joinLines ((rustLines contents).filter (fun line => !lineMatches skips line))

/-- Modelled from the spec: one token of the external glob matcher
(`glob::Pattern`, an external collaborator whose exact semantics the spec
defers to a conventional shell-glob subset): a single-character wildcard,
an arbitrary-sequence wildcard, a literal character, or a (possibly
negated) character class. -/
inductive GlobTok where
  | anyChar : GlobTok
  | anySeq : GlobTok
  | lit : Char → GlobTok
  | charClass : Bool → List Char → GlobTok
deriving DecidableEq

/-- Modelled from the spec: the compiler of `glob::Pattern::new`, over the
conventional shell-glob subset the spec names.  The first argument is
`none` in ordinary mode and `some (negated, accumulated)` inside a
character class; a class left unclosed (or empty) makes the whole pattern
fail to compile, which the model reports as `none`. -/
def globCompileAux : Option (Bool × List Char) → List Char → Option (List GlobTok)
  | none, [] => some []
  | none, '*' :: rest => (globCompileAux none rest).map (fun ts => GlobTok.anySeq :: ts)
  | none, '?' :: rest => (globCompileAux none rest).map (fun ts => GlobTok.anyChar :: ts)
  | none, '[' :: '!' :: rest => globCompileAux (some (true, [])) rest
  | none, '[' :: rest => globCompileAux (some (false, [])) rest
  | none, c :: rest => (globCompileAux none rest).map (fun ts => GlobTok.lit c :: ts)
  | some _, [] => none
  | some (neg, acc), ']' :: rest =>
    if acc.isEmpty then none
    else (globCompileAux none rest).map (fun ts => GlobTok.charClass neg acc.reverse :: ts)
  | some (neg, acc), c :: rest => globCompileAux (some (neg, c :: acc)) rest

/-- Modelled from the spec: `glob::Pattern::new` on a pattern string,
`none` when the pattern fails to compile. -/
def globCompile (p : List Char) : Option (List GlobTok) := globCompileAux none p

/-- Modelled from the spec: glob matching with explicit fuel.  Every
recursive call strictly decreases `ts.length + s.length`, so any fuel
above that sum computes the true backtracking-match result. -/
def globMatchFuel : Nat → List GlobTok → List Char → Bool
  | 0, _, _ => false
  | _ + 1, [], s => s.isEmpty
  | fuel + 1, GlobTok.anySeq :: ts, s =>
    globMatchFuel fuel ts s ||
      (match s with
       | [] => false
       | _ :: s' => globMatchFuel fuel (GlobTok.anySeq :: ts) s')
  | fuel + 1, GlobTok.anyChar :: ts, s =>
    match s with
    | [] => false
    | _ :: s' => globMatchFuel fuel ts s'
  | fuel + 1, GlobTok.lit c :: ts, s =>
    match s with
    | [] => false
    | d :: s' => (d = c) && globMatchFuel fuel ts s'
  | fuel + 1, GlobTok.charClass neg cs :: ts, s =>
    match s with
    | [] => false
    | d :: s' => (cs.contains d != neg) && globMatchFuel fuel ts s'

/-- Modelled from the spec: `Pattern::matches` of the glob matcher. -/
def globMatch (ts : List GlobTok) (s : List Char) : Bool :=
  globMatchFuel (ts.length + s.length + 1) ts s


/-- One immediate directory entry as the scan sees it: its base name, whether
it is a regular file, and the result of `fs::read_to_string` on it (`none`
models a read failure). -/
structure Entry where
  name : List Char
  isFile : Bool
  readResult : Option (List Char)
deriving DecidableEq

/-- One emitted line or record, tagged with the call that wrote it:
`primary` for `writeln!(writer, ..)` (the chosen output destination),
`info` for `println!` (standard output), `warn` for `eprintln!`
(standard error). -/
inductive Event where
  | primary : List Char → Event
  | info : List Char → Event
  | warn : List Char → Event
deriving DecidableEq

/-- The fallback of both modes for an uncompilable ignore pattern:
`Pattern::new("a^").unwrap()` (`main.rs` line 103 / 188). -/
def fallbackGlob : List GlobTok := (globCompile ("a^".data)).getD []

/-- Text of `eprintln!("Warning: Invalid ignore pattern '{}'. Ignoring.", p)`. -/
def invalidPatternWarn (p : List Char) : List Char :=
  ("Warning: Invalid ignore pattern \x27".data) ++ p ++ ("\x27. Ignoring.\n".data)

/-- The compiled ignore-pattern list of both modes (`main.rs` lines 98-105
and 183-190, textually identical): each pattern compiles, or degrades to
`fallbackGlob`. -/
def compileIgnoreGlobs (pats : List (List Char)) : List (List GlobTok) :=
  pats.map (fun p =>
    match globCompile p with
    | some g => g
    | none => fallbackGlob)

/-- The warnings emitted while compiling the ignore patterns, in order. -/
def compileWarnings (pats : List (List Char)) : List Event :=
  pats.filterMap (fun p =>
    match globCompile p with
    | some _ => none
    | none => some (Event.warn (invalidPatternWarn p)))

/-- Test `ignore_globs.iter().any(|p| p.matches(&file_name_str))`. -/
def nameIgnored (globs : List (List GlobTok)) (name : List Char) : Bool :=
  globs.any (fun g => globMatch g name)

/-- Text of `println!("Skipping ignored file: {}", file_name_str)`. -/
def skipInfo (name : List Char) : List Char :=
  ("Skipping ignored file: ".data) ++ name ++ ['\n']

/-- Text of `eprintln!("Warning: Could not read file {}", file_path.display())`;
the displayed path is the directory path joined with the base name. -/
def readWarn (dirPath name : List Char) : List Char :=
  ("Warning: Could not read file ".data) ++ dirPath ++ '/' :: name ++ ['\n']

/-- The placeholder contents substituted on a read failure
(`main.rs` line 142 / 224). -/
def placeholder : List Char := "[Could not read contents]".data

/-- The record written per surviving file in TokenizeDir mode:
`writeln!(writer, "{}   {} tokens", file_name_str, token_count)`. -/
def tokenRender (name : List Char) (count : Nat) : List Char :=
  name ++ ("   ".data) ++ (Nat.repr count).data ++ (" tokens\n".data)

/-- The record written per surviving file in DirPrompt mode:
`writeln!(writer, "{}\n\n{}\n", file_name_str, processed_contents)` — the
format string already ends in a newline and `writeln!` appends another
line terminator after it. -/
def promptRender (name contents : List Char) : List Char :=
  name ++ ('\n' :: '\n' :: contents) ++ ('\n' :: '\n' :: [])

/-- The events one directory entry produces in TokenizeDir mode
(`main.rs` lines 125-164): non-files are passed over; a name matching any
ignore glob yields only the skip notice; otherwise the contents (or the
placeholder, after a read warning) are line-filtered, tokenized with the
opaque tokenizer `tok`, and the token-count record is written. -/
def tokenizeEntryEvents (tok : List Char → Nat) (globs : List (List GlobTok))
    (skips : List (List Char)) (dirPath : List Char) (e : Entry) : List Event :=
  if e.isFile then
    if nameIgnored globs e.name then [Event.info (skipInfo e.name)]
    else
      (match e.readResult with
       | some _ => []
       | none => [Event.warn (readWarn dirPath e.name)]) ++
      [Event.primary (tokenRender e.name
        (tok (lineFilter skips
          (match e.readResult with
           | some c => c
           | none => placeholder))))]
  else []

/-- The events one directory entry produces in DirPrompt mode
(`main.rs` lines 207-242): identical to TokenizeDir except for the final
record format. -/
def promptEntryEvents (globs : List (List GlobTok)) (skips : List (List Char))
    (dirPath : List Char) (e : Entry) : List Event :=
  if e.isFile then
    if nameIgnored globs e.name then [Event.info (skipInfo e.name)]
    else
      (match e.readResult with
       | some _ => []
       | none => [Event.warn (readWarn dirPath e.name)]) ++
      [Event.primary (promptRender e.name
        (lineFilter skips
          (match e.readResult with
           | some c => c
           | none => placeholder)))]
  else []

/-- Function `tokenize_directory` (`main.rs` lines 86-168): rejects a non-directory
path with the error message of line 94, otherwise compiles the ignore
patterns (warning on the invalid ones) and emits the events of every
entry in enumeration order. -/
def tokenize_directory (isDir : Bool) (dirPath : List Char)
    (ignorePatterns skipSubstrings : List (List Char)) (tok : List Char → Nat)
    (entries : List Entry) : Except (List Char) (List Event) :=
  if isDir then
    Except.ok (compileWarnings ignorePatterns ++
      entries.flatMap
        (tokenizeEntryEvents tok (compileIgnoreGlobs ignorePatterns) skipSubstrings dirPath))
  else
    Except.error (dirPath ++ (" is not a directory.".data))

/-- Function `build_prompt_directory` (`main.rs` lines 171-246): the same pipeline
as `tokenize_directory` with the prompt-block record format. -/
def build_prompt_directory (isDir : Bool) (dirPath : List Char)
    (ignorePatterns skipSubstrings : List (List Char))
    (entries : List Entry) : Except (List Char) (List Event) :=
  if isDir then
    Except.ok (compileWarnings ignorePatterns ++
      entries.flatMap
        (promptEntryEvents (compileIgnoreGlobs ignorePatterns) skipSubstrings dirPath))
  else
    Except.error (dirPath ++ (" is not a directory.".data))

/-- Function `main` (`main.rs` lines 56-83): an `Err` from either subcommand is
reported as `eprintln!("Error: {}", e)` followed by `exit(1)`; otherwise
the process ends with exit code 0. -/
def runMain (r : Except (List Char) (List Event)) : Nat × List Event :=
  match r with
  | Except.ok evs => (0, evs)
  | Except.error e => (1, [Event.warn (("Error: ".data) ++ e ++ ['\n'])])

/-- Content the chosen primary destination receives: the `primary` events
in order (`writer` is the opened output file, or standard output when no
output path was given). -/
def primaryOut (evs : List Event) : List Char :=
  (evs.filterMap (fun e =>
    match e with
    | Event.primary s => some s
    | _ => none)).flatten

/-- Content standard output receives: every `info` line (`println!`), plus
every `primary` record when the primary destination is standard output
(`toFile = false`). -/
def stdoutOut (toFile : Bool) (evs : List Event) : List Char :=
  (evs.filterMap (fun e =>
    match e with
    | Event.primary s => if toFile then none else some s
    | Event.info s => some s
    | Event.warn _ => none)).flatten

/-- Content standard error receives: the `warn` lines (`eprintln!`). -/
def stderrOut (evs : List Event) : List Char :=
  (evs.filterMap (fun e =>
    match e with
    | Event.warn s => some s
    | _ => none)).flatten

/-- Spec-side description of the warning lines of a run: one line per
uncompilable ignore pattern, then one line per unreadable non-ignored
file entry, in scan order. -/
def specWarnLines (dirPath : List Char) (pats : List (List Char))
    (entries : List Entry) : List (List Char) :=
  (pats.filterMap (fun p =>
    if (globCompile p).isSome then none else some (invalidPatternWarn p))) ++
  entries.filterMap (fun e =>
    if e.isFile && !nameIgnored (compileIgnoreGlobs pats) e.name && e.readResult.isNone
    then some (readWarn dirPath e.name) else none)

/-- Spec-side description of the informational lines of a run: one skip
notice per ignored file entry, in scan order. -/
def specInfoLines (pats : List (List Char)) (entries : List Entry) : List (List Char) :=
  entries.filterMap (fun e =>
    if e.isFile && nameIgnored (compileIgnoreGlobs pats) e.name
    then some (skipInfo e.name) else none)

/-- One event of the mode-independent pipeline, before the final
rendering: a record still carries the base name and the filtered text. -/
inductive CoreEvent where
  | info : List Char → CoreEvent
  | warn : List Char → CoreEvent
  | record : List Char → List Char → CoreEvent
deriving DecidableEq

/-- The filtering pipeline both modes implement for one entry, written
mode-independently: the same skip-or-keep decision on the base name, the
same contents-or-placeholder loading with its warning, and the same line
filtering; the record is left unrendered. -/
def sharedEntryCore (globs : List (List GlobTok)) (skips : List (List Char))
    (dirPath : List Char) (e : Entry) : List CoreEvent :=
  if e.isFile then
    if nameIgnored globs e.name then [CoreEvent.info (skipInfo e.name)]
    else
      (match e.readResult with
       | some _ => []
       | none => [CoreEvent.warn (readWarn dirPath e.name)]) ++
      [CoreEvent.record e.name (lineFilter skips
        (match e.readResult with
         | some c => c
         | none => placeholder))]
  else []

/-- The whole mode-independent pipeline: directory validation, pattern
compilation with the same fallback for invalid patterns, and the scan. -/
def sharedPipeline (isDir : Bool) (dirPath : List Char)
    (pats skips : List (List Char)) (entries : List Entry) :
    Except (List Char) (List CoreEvent) :=
  if isDir then
    Except.ok ((pats.filterMap (fun p =>
        match globCompile p with
        | some _ => none
        | none => some (CoreEvent.warn (invalidPatternWarn p)))) ++
      entries.flatMap (sharedEntryCore (compileIgnoreGlobs pats) skips dirPath))
  else Except.error (dirPath ++ (" is not a directory.".data))

/-- TokenizeDir rendering of one pipeline event. -/
def tokenRenderEvent (tok : List Char → Nat) : CoreEvent → Event
  | CoreEvent.info s => Event.info s
  | CoreEvent.warn s => Event.warn s
  | CoreEvent.record n ft => Event.primary (tokenRender n (tok ft))

/-- DirPrompt rendering of one pipeline event. -/
def promptRenderEvent : CoreEvent → Event
  | CoreEvent.info s => Event.info s
  | CoreEvent.warn s => Event.warn s
  | CoreEvent.record n ft => Event.primary (promptRender n ft)

/-- A list whose `getLast?` is `some c` is its `dropLast` with `c` appended. -/
theorem eq_dropLast_concat_of_getLast? {l : List Char} {c : Char}
    (h : l.getLast? = some c) : l.dropLast ++ [c] = l := by
  rcases List.eq_nil_or_concat l with hnil | ⟨L, b, hlb⟩
  · rw [hnil] at h
    simp at h
  · subst hlb
    rw [List.concat_eq_append] at h ⊢
    rw [List.getLast?_concat] at h
    obtain rfl : b = c := Option.some.inj h
    rw [List.dropLast_concat]

/-- The value reported by `getLast?` is a member of the list. -/
theorem mem_of_getLast?_eq {l : List Char} {c : Char}
    (h : l.getLast? = some c) : c ∈ l := by
  rw [← eq_dropLast_concat_of_getLast? h]
  simp

/-- Stripping a trailing carriage return leaves a prefix of the line. -/
theorem stripCR_prefix_self (l : List Char) : stripCR l <+: l := by
  unfold stripCR
  split
  · exact List.dropLast_prefix l
  · exact List.prefix_refl l

/-- Equation of `linesAux` at the end of the text. -/
theorem linesAux_nil (cur : List Char) :
    linesAux cur [] = if cur.isEmpty then [] else [cur.reverse] := rfl

/-- Equation of `linesAux` at a newline. -/
theorem linesAux_cons_newline (cur rest : List Char) :
    linesAux cur ('\n' :: rest) = stripCR cur.reverse :: linesAux [] rest := by
  conv_lhs => rw [linesAux]
  rw [if_pos rfl]

/-- Equation of `linesAux` at an ordinary character. -/
theorem linesAux_cons_of_ne (cur rest : List Char) {c : Char} (hc : c ≠ '\n') :
    linesAux cur (c :: rest) = linesAux (c :: cur) rest := by
  conv_lhs => rw [linesAux]
  rw [if_neg hc]

/-- No line produced by `linesAux` contains a newline, provided the
accumulator holds none. -/
theorem linesAux_no_newline :
    ∀ (s cur : List Char), '\n' ∉ cur → ∀ l ∈ linesAux cur s, '\n' ∉ l := by
  intro s
  induction s with
  | nil =>
    intro cur hcur l hl
    rw [linesAux_nil] at hl
    split at hl
    · simp at hl
    · simp at hl
      subst hl
      simpa [List.mem_reverse] using hcur
  | cons c rest ih =>
    intro cur hcur l hl
    by_cases hc : c = '\n'
    · subst hc
      rw [linesAux_cons_newline] at hl
      rcases List.mem_cons.mp hl with hl | hl
      · intro hmem
        exact hcur (by simpa [List.mem_reverse] using
          ((stripCR_prefix_self cur.reverse).sublist.subset (hl ▸ hmem)))
      · exact ih [] (by simp) l hl
    · rw [linesAux_cons_of_ne cur rest hc] at hl
      refine ih (c :: cur) ?_ l hl
      intro hmem
      rcases List.mem_cons.mp hmem with h | h
      · exact hc h.symm
      · exact hcur h

/-- No line of `rustLines` contains a newline character. -/
theorem rustLines_no_newline (s : List Char) : ∀ l ∈ rustLines s, '\n' ∉ l :=
  linesAux_no_newline s [] (by simp)

/-- Splitting a text that starts with a newline-free segment followed by a
newline peels off exactly that segment (with its one trailing CR
stripped). -/
theorem linesAux_append_newline :
    ∀ (l : List Char), (∀ c ∈ l, c ≠ '\n') → ∀ (cur rest : List Char),
      linesAux cur (l ++ '\n' :: rest) = stripCR (cur.reverse ++ l) :: linesAux [] rest := by
  intro l
  induction l with
  | nil =>
    intro _ cur rest
    rw [List.nil_append, linesAux_cons_newline, List.append_nil]
  | cons c l' ih =>
    intro h cur rest
    have hc : c ≠ '\n' := h c (by simp)
    rw [List.cons_append, linesAux_cons_of_ne _ _ hc,
      ih (fun d hd => h d (by simp [hd])) (c :: cur) rest]
    simp [List.append_assoc]

/-- A nonempty newline-free text is a single line. -/
theorem linesAux_no_newline_total :
    ∀ (l : List Char), (∀ c ∈ l, c ≠ '\n') → ∀ (cur : List Char),
      cur.reverse ++ l ≠ [] → linesAux cur l = [cur.reverse ++ l] := by
  intro l
  induction l with
  | nil =>
    intro _ cur hne
    simp only [List.append_nil] at hne ⊢
    rw [linesAux_nil, if_neg]
    simpa [List.isEmpty_iff] using hne
  | cons c l' ih =>
    intro h cur _
    have hc : c ≠ '\n' := h c (by simp)
    rw [linesAux_cons_of_ne _ _ hc,
      ih (fun d hd => h d (by simp [hd])) (c :: cur)
        (by simp)]
    simp [List.append_assoc]

/-- Value of `rustLines` on a nonempty newline-free text. -/
theorem rustLines_of_no_newline (l : List Char) (hne : l ≠ [])
    (h : ∀ c ∈ l, c ≠ '\n') : rustLines l = [l] := by
  have := linesAux_no_newline_total l h [] (by simpa using hne)
  simpa [rustLines] using this

/-- Equation of `joinLines` on at least two lines. -/
theorem joinLines_cons_cons (l l' : List Char) (ls : List (List Char)) :
    joinLines (l :: l' :: ls) = l ++ '\n' :: joinLines (l' :: ls) := rfl

/-- An infix of a list is an infix of any extension on the left. -/
theorem infix_append_left {x J : List Char} (l : List Char) (h : x <:+: J) :
    x <:+: l ++ J := by
  obtain ⟨u, v, huv⟩ := h
  exact ⟨l ++ u, v, by rw [← huv]; simp [List.append_assoc]⟩

/-- The join of a nonempty list of lines is empty only when it is the join
of the single empty line. -/
theorem joinLines_cons_eq_nil (x : List Char) (xs : List (List Char)) :
    joinLines (x :: xs) = [] ↔ (x = [] ∧ xs = []) := by
  cases xs with
  | nil => simp [joinLines]
  | cons y ys =>
    rw [joinLines_cons_cons]
    constructor
    · intro h
      exact absurd h (by simp)
    · rintro ⟨-, h⟩
      exact absurd h (by simp)

/-- Every line that re-splitting the join produces is a prefix of one of
the joined lines (the final empty segment is dropped and one CR before
each newline is stripped). -/
theorem rustLines_joinLines_prefix_parent :
    ∀ (ls : List (List Char)), (∀ l ∈ ls, ∀ c ∈ l, c ≠ '\n') →
      ∀ m ∈ rustLines (joinLines ls), ∃ l ∈ ls, m <+: l := by
  intro ls
  induction ls with
  | nil =>
    intro _ m hm
    simp [joinLines, rustLines, linesAux_nil] at hm
  | cons l ls ih =>
    intro h m hm
    cases ls with
    | nil =>
      by_cases hl : l = []
      · subst hl
        simp [joinLines, rustLines, linesAux_nil] at hm
      · rw [show joinLines [l] = l from rfl,
          rustLines_of_no_newline l hl (h l (by simp))] at hm
        simp only [List.mem_singleton] at hm
        exact ⟨l, by simp, hm ▸ List.prefix_refl l⟩
    | cons l' ls' =>
      rw [joinLines_cons_cons, rustLines,
        linesAux_append_newline l (h l (by simp)) [] _] at hm
      simp only [List.reverse_nil, List.nil_append] at hm
      rcases List.mem_cons.mp hm with hm | hm
      · exact ⟨l, by simp, hm ▸ stripCR_prefix_self l⟩
      · obtain ⟨k, hk, hpk⟩ := ih (fun x hx => h x (by simp [hx])) m hm
        exact ⟨k, by simp [hk], hpk⟩

/-- Re-splitting the join gives back exactly the joined lines when no line
contains a newline, no non-final line ends in a carriage return, and the
final line is nonempty. -/
theorem rustLines_joinLines_eq :
    ∀ (ls : List (List Char)), (∀ l ∈ ls, ∀ c ∈ l, c ≠ '\n') →
      (∀ l ∈ ls.dropLast, l.getLast? ≠ some '\r') →
      (∀ k, ls.getLast? = some k → k ≠ []) →
      rustLines (joinLines ls) = ls := by
  intro ls
  induction ls with
  | nil =>
    intro _ _ _
    simp [joinLines, rustLines, linesAux_nil]
  | cons l ls ih =>
    intro h hCR hlast
    cases ls with
    | nil =>
      have hl : l ≠ [] := hlast l (by simp)
      rw [show joinLines [l] = l from rfl, rustLines_of_no_newline l hl (h l (by simp))]
    | cons l' ls' =>
      rw [joinLines_cons_cons, rustLines,
        linesAux_append_newline l (h l (by simp)) [] _]
      simp only [List.reverse_nil, List.nil_append]
      have hstrip : stripCR l = l := by
        unfold stripCR
        rw [if_neg (hCR l (by simp [List.dropLast]))]
      rw [hstrip]
      rw [show linesAux [] (joinLines (l' :: ls')) = rustLines (joinLines (l' :: ls')) from rfl]
      rw [ih (fun x hx => h x (by simp [hx]))
        (fun x hx => hCR x (by simp [List.dropLast, hx]))
        (fun k hk => hlast k (by rw [List.getLast?_cons_cons]; exact hk))]

/-- A carriage return at the end of a non-final line shows up as the two
character sequence CR-LF inside the join. -/
theorem crlf_in_joinLines :
    ∀ (ls : List (List Char)) (k : List Char), k ∈ ls.dropLast →
      k.getLast? = some '\r' → ('\r' :: '\n' :: []) <:+: joinLines ls := by
  intro ls
  induction ls with
  | nil =>
    intro k hk _
    simp at hk
  | cons l ls ih =>
    intro k hk hCR
    cases ls with
    | nil =>
      simp [List.dropLast] at hk
    | cons l' ls' =>
      rw [joinLines_cons_cons]
      simp only [List.dropLast, List.mem_cons] at hk
      rcases hk with hk | hk
      · subst hk
        have hconc := eq_dropLast_concat_of_getLast? hCR
        refine ⟨k.dropLast, joinLines (l' :: ls'), ?_⟩
        rw [← hconc]
        simp [List.append_assoc]
      · exact infix_append_left l
          (infix_append_left ['\n'] (ih k (by simpa [List.dropLast] using hk) hCR))

/-- The join ends in a newline exactly when there are at least two lines
and the final one is empty (given that no line contains a newline). -/
theorem joinLines_getLast_newline :
    ∀ (ls : List (List Char)), (∀ l ∈ ls, ∀ c ∈ l, c ≠ '\n') →
      ((joinLines ls).getLast? = some '\n' ↔
        (ls.getLast? = some [] ∧ 2 ≤ ls.length)) := by
  intro ls
  induction ls with
  | nil =>
    intro _
    simp [joinLines]
  | cons l ls ih =>
    intro h
    cases ls with
    | nil =>
      constructor
      · intro habs
        exact absurd (h l (by simp) '\n' (mem_of_getLast?_eq habs)) (by simp)
      · rintro ⟨-, habs⟩
        simp at habs
    | cons l' ls' =>
      rw [joinLines_cons_cons, List.getLast?_append_cons, List.getLast?_cons_cons]
      cases hJ : joinLines (l' :: ls') with
      | nil =>
        obtain ⟨hl', hls'⟩ := (joinLines_cons_eq_nil l' ls').mp hJ
        subst hl'
        subst hls'
        simp
      | cons j js =>
        rw [show (('\n' : Char) :: j :: js).getLast? = (j :: js).getLast? from
          List.getLast?_cons_cons]
        rw [← hJ, ih (fun x hx => h x (by simp [hx]))]
        constructor
        · rintro ⟨h1, -⟩
          exact ⟨h1, by simp⟩
        · rintro ⟨h1, -⟩
          refine ⟨h1, ?_⟩
          cases ls' with
          | nil =>
            obtain rfl : l' = [] := by simpa using h1
            simp [joinLines] at hJ
          | cons a as => simp
/-- With a nonempty skip set the filter takes the split-filter-join branch. -/
theorem lineFilter_of_ne_nil (S : List (List Char)) (T : List Char) (hS : S ≠ []) :
    lineFilter S T =
      joinLines ((rustLines T).filter (fun line => !lineMatches S line)) := by
  unfold lineFilter
  rw [if_neg]
  simpa [List.isEmpty_iff] using hS

/-- The kept-line test of the code agrees pointwise with the spec reading:
a line is kept exactly when it contains none of the skip substrings. -/
theorem not_lineMatches_eq_decide (S : List (List Char)) (l : List Char) :
    (!lineMatches S l) = decide (∀ s ∈ S, ¬ s <:+: l) := by
  rw [Bool.eq_iff_iff]
  simp [lineMatches, strContains, List.any_eq_false]

/-- C1: for every text and nonempty skip-substring set, no line of the
filtered output contains any skip substring as a contiguous match, and
the output is exactly the single-newline join of those input lines that
contain no skip substring, in their original relative order. -/
theorem C1_line_filter_sound_complete (T : List Char) (S : List (List Char))
    (hS : S ≠ []) :
    (∀ m ∈ rustLines (lineFilter S T), ∀ s ∈ S, ¬ s <:+: m) ∧
      lineFilter S T =
        joinLines ((rustLines T).filter (fun l => decide (∀ s ∈ S, ¬ s <:+: l))) := by
  have hshape := lineFilter_of_ne_nil S T hS
  constructor
  · intro m hm s hs hinf
    rw [hshape] at hm
    have hnl : ∀ l ∈ (rustLines T).filter (fun line => !lineMatches S line),
        ∀ c ∈ l, c ≠ '\n' := by
      intro l hl c hc he
      exact rustLines_no_newline T l (List.mem_of_mem_filter hl) (he ▸ hc)
    obtain ⟨l, hl, hpref⟩ := rustLines_joinLines_prefix_parent _ hnl m hm
    obtain ⟨t, ht⟩ := hpref
    have hinf' : s <:+: l := by
      obtain ⟨u, v, huv⟩ := hinf
      exact ⟨u, v ++ t, by rw [← ht, ← huv]; simp [List.append_assoc]⟩
    have hsurv := (List.mem_filter.mp hl).2
    rw [not_lineMatches_eq_decide] at hsurv
    exact (of_decide_eq_true hsurv) s hs hinf'
  · rw [hshape]
    congr 1
    exact List.filter_congr (fun l _ => not_lineMatches_eq_decide S l)

/-- Witness for C1 at a concrete text and skip set. -/
theorem C1_line_filter_sound_complete_witness :
    (["DROP".data] ≠ ([] : List (List Char))) ∧
      ((∀ m ∈ rustLines (lineFilter ["DROP".data] ("keep\nDROP me\nkeep2\n".data)),
          ∀ s ∈ ["DROP".data], ¬ s <:+: m) ∧
        lineFilter ["DROP".data] ("keep\nDROP me\nkeep2\n".data) =
          joinLines ((rustLines ("keep\nDROP me\nkeep2\n".data)).filter
            (fun l => decide (∀ s ∈ ["DROP".data], ¬ s <:+: l)))) :=
  ⟨by decide, C1_line_filter_sound_complete _ _ (by decide)⟩

/-- C5: filtering with an empty skip-substring set returns the text
unchanged, byte for byte. -/
theorem C5_empty_skips_identity (T : List Char) : lineFilter [] T = T := rfl

/-- C2 as stated fails on the code: in the end-to-end scenario of the
claim, the emitted block is not the claimed single-trailing-newline
block, because writeln! appends a line terminator after the format
string's own trailing newline. -/
theorem C2_counterexample :
    promptRender ("a.txt".data)
        (lineFilter ["DROP".data] ("keep\nDROP me\nkeep2\n".data)) ≠
      "a.txt\n\nkeep\nkeep2\n".data := by decide

/-- C2 amended: the rendered block for a surviving file is exactly the
base name, a blank line, the filtered text verbatim with no escaping or
truncation, and two trailing newlines (the format string's own newline
plus the writeln! line terminator); in the scenario of the claim the
block is "a.txt\n\nkeep\nkeep2\n\n". -/
theorem C2_amended_prompt_block :
    (∀ name contents : List Char,
      promptRender name contents =
        name ++ ('\n' :: '\n' :: []) ++ contents ++ ('\n' :: '\n' :: [])) ∧
      promptRender ("a.txt".data)
          (lineFilter ["DROP".data] ("keep\nDROP me\nkeep2\n".data)) =
        "a.txt\n\nkeep\nkeep2\n\n".data := by
  constructor
  · intro name contents
    simp [promptRender]
  · decide

/-- C6 as stated fails on the code: filtering "a\n\n" once with the
nonempty skip set containing only z gives "a\n", and filtering that
result again gives "a". -/
theorem C6_counterexample :
    lineFilter ["z".data] (lineFilter ["z".data] ("a\n\n".data)) ≠
      lineFilter ["z".data] ("a\n\n".data) := by decide

/-- Refiltering the join of already-surviving lines changes nothing when
no joined line contains a newline, none ends in a carriage return before
the join, and the join does not end in a newline. -/
theorem filter_joinLines_self (p : List Char → Bool) (ks : List (List Char))
    (hsurv : ∀ k ∈ ks, p k = true)
    (hnl : ∀ k ∈ ks, ∀ c ∈ k, c ≠ '\n')
    (h1 : ¬ ('\r' :: '\n' :: []) <:+: joinLines ks)
    (h2 : (joinLines ks).getLast? ≠ some '\n') :
    joinLines ((rustLines (joinLines ks)).filter p) = joinLines ks := by
  cases ks with
  | nil => simp [joinLines, rustLines, linesAux_nil]
  | cons k ks' =>
    by_cases hnil : joinLines (k :: ks') = []
    · rw [hnil]
      simp [rustLines, linesAux_nil, joinLines, hnil]
    · have hCR : ∀ l ∈ (k :: ks').dropLast, l.getLast? ≠ some '\r' := by
        intro l hl hlr
        exact h1 (crlf_in_joinLines _ l hl hlr)
      have hlast : ∀ x, (k :: ks').getLast? = some x → x ≠ [] := by
        intro x hx hxnil
        subst hxnil
        cases ks' with
        | nil =>
          obtain rfl : k = [] := by simpa using hx
          exact hnil rfl
        | cons a as =>
          exact h2 ((joinLines_getLast_newline _ hnl).mpr ⟨hx, by simp⟩)
      rw [rustLines_joinLines_eq _ hnl hCR hlast, List.filter_eq_self.mpr hsurv]

/-- C6 amended: filtering twice with the same skip set equals filtering
once, provided the skip set is empty, or the once-filtered text neither
contains a carriage return immediately before a newline nor ends with a
newline; in general the second application can additionally strip a
carriage return before each newline and drop a trailing newline. -/
theorem C6_amended_idempotent (T : List Char) (S : List (List Char))
    (h : S = [] ∨ (¬ ('\r' :: '\n' :: []) <:+: lineFilter S T ∧
      (lineFilter S T).getLast? ≠ some '\n')) :
    lineFilter S (lineFilter S T) = lineFilter S T := by
  rcases h with rfl | ⟨h1, h2⟩
  · rfl
  · by_cases hS : S = []
    · subst hS
      rfl
    · have hshape := lineFilter_of_ne_nil S T hS
      rw [hshape] at h1 h2 ⊢
      rw [lineFilter_of_ne_nil S _ hS]
      refine filter_joinLines_self _ _ ?_ ?_ h1 h2
      · intro k hk
        exact (List.mem_filter.mp hk).2
      · intro k hk c hc he
        exact rustLines_no_newline T k (List.mem_of_mem_filter hk) (he ▸ hc)

/-- Witness for the amended C6 at a concrete text and skip set. -/
theorem C6_amended_idempotent_witness :
    ((["DROP".data] : List (List Char)) = [] ∨
      (¬ ('\r' :: '\n' :: []) <:+: lineFilter ["DROP".data] ("keep\nDROP\nkeep2".data) ∧
        (lineFilter ["DROP".data] ("keep\nDROP\nkeep2".data)).getLast? ≠ some '\n')) ∧
      lineFilter ["DROP".data] (lineFilter ["DROP".data] ("keep\nDROP\nkeep2".data)) =
        lineFilter ["DROP".data] ("keep\nDROP\nkeep2".data) :=
  ⟨Or.inr (by decide), C6_amended_idempotent _ _ (Or.inr (by decide))⟩

/-- C9 as stated fails on the code: with the nonempty skip set containing
only z, the text "a\n\n" filters to "a\n", which ends with a newline. -/
theorem C9_counterexample :
    (["z".data] ≠ ([] : List (List Char))) ∧
      (lineFilter ["z".data] ("a\n\n".data)).getLast? = some '\n' := by decide

/-- C9 amended: for a nonempty skip set the filtered result ends with a
newline exactly when at least two lines survive and the last survivor is
empty; in particular, when the last surviving line is nonempty the result
does not end with a newline, so a single trailing newline of the input is
removed. -/
theorem C9_amended_trailing_newline (T : List Char) (S : List (List Char))
    (hS : S ≠ []) :
    ((lineFilter S T).getLast? = some '\n' ↔
      (((rustLines T).filter (fun line => !lineMatches S line)).getLast? = some [] ∧
        2 ≤ ((rustLines T).filter (fun line => !lineMatches S line)).length)) := by
  rw [lineFilter_of_ne_nil S T hS]
  exact joinLines_getLast_newline _ (fun l hl c hc he =>
    rustLines_no_newline T l (List.mem_of_mem_filter hl) (he ▸ hc))

/-- Witness for the amended C9 at a concrete text and skip set. -/
theorem C9_amended_trailing_newline_witness :
    (["x".data] ≠ ([] : List (List Char))) ∧
      ((lineFilter ["x".data] ("keep\n\n".data)).getLast? = some '\n' ↔
        (((rustLines ("keep\n\n".data)).filter
            (fun line => !lineMatches ["x".data] line)).getLast? = some [] ∧
          2 ≤ ((rustLines ("keep\n\n".data)).filter
            (fun line => !lineMatches ["x".data] line)).length)) :=
  ⟨by decide, C9_amended_trailing_newline _ _ (by decide)⟩

/-- C3: evaluation of the code at the failing input.  The pattern
consisting of a single opening bracket fails to compile; the run is not
aborted, the warning naming the pattern is emitted, and the degraded
matcher is installed, but that matcher — the compiled fallback pattern
for the two characters a and caret — matches the file base name "a^", so
the name filter returns true for that name and the file is skipped,
contradicting the claim (and the comment in the code) that the degraded
pattern matches nothing. -/
theorem C3_fallback_matches_a_caret :
    globCompile ("[".data) = none ∧
      compileWarnings ["[".data] = [Event.warn (invalidPatternWarn ("[".data))] ∧
      nameIgnored (compileIgnoreGlobs ["[".data]) ("a^".data) = true ∧
      tokenize_directory true ("d".data) ["[".data] [] (fun _ => 0)
          [⟨"a^".data, true, some []⟩] =
        Except.ok [Event.warn (invalidPatternWarn ("[".data)),
          Event.info (skipInfo ("a^".data))] := by
  exact ⟨rfl, rfl, by decide, rfl⟩

/-- TokenizeDir events of an unreadable, non-ignored file entry. -/
theorem tokenizeEntryEvents_unreadable (tok : List Char → Nat)
    (globs : List (List GlobTok)) (skips : List (List Char)) (dirPath : List Char)
    (e : Entry) (hFile : e.isFile = true) (hRead : e.readResult = none)
    (hKeep : nameIgnored globs e.name = false) :
    tokenizeEntryEvents tok globs skips dirPath e =
      [Event.warn (readWarn dirPath e.name),
        Event.primary (tokenRender e.name (tok (lineFilter skips placeholder)))] := by
  simp [tokenizeEntryEvents, hFile, hRead, hKeep]

/-- DirPrompt events of an unreadable, non-ignored file entry. -/
theorem promptEntryEvents_unreadable (globs : List (List GlobTok))
    (skips : List (List Char)) (dirPath : List Char)
    (e : Entry) (hFile : e.isFile = true) (hRead : e.readResult = none)
    (hKeep : nameIgnored globs e.name = false) :
    promptEntryEvents globs skips dirPath e =
      [Event.warn (readWarn dirPath e.name),
        Event.primary (promptRender e.name (lineFilter skips placeholder))] := by
  simp [promptEntryEvents, hFile, hRead, hKeep]

/-- C4: in both modes, a file entry whose contents cannot be read is not
dropped and does not abort the scan: the run emits a warning naming the
file, substitutes the fixed placeholder text, pushes it through the line
filter and the mode's rendering into the primary output, and the entries
after it are still processed. -/
theorem C4_unreadable_file_continues (dirPath : List Char)
    (pats skips : List (List Char)) (tok : List Char → Nat)
    (e : Entry) (pre post : List Entry)
    (hFile : e.isFile = true) (hRead : e.readResult = none)
    (hKeep : nameIgnored (compileIgnoreGlobs pats) e.name = false) :
    tokenize_directory true dirPath pats skips tok (pre ++ e :: post) =
      Except.ok (compileWarnings pats ++
        (pre.flatMap (tokenizeEntryEvents tok (compileIgnoreGlobs pats) skips dirPath) ++
          ([Event.warn (readWarn dirPath e.name),
            Event.primary (tokenRender e.name (tok (lineFilter skips placeholder)))] ++
            post.flatMap (tokenizeEntryEvents tok (compileIgnoreGlobs pats) skips dirPath)))) ∧
      build_prompt_directory true dirPath pats skips (pre ++ e :: post) =
        Except.ok (compileWarnings pats ++
          (pre.flatMap (promptEntryEvents (compileIgnoreGlobs pats) skips dirPath) ++
            ([Event.warn (readWarn dirPath e.name),
              Event.primary (promptRender e.name (lineFilter skips placeholder))] ++
              post.flatMap (promptEntryEvents (compileIgnoreGlobs pats) skips dirPath)))) := by
  constructor
  · unfold tokenize_directory
    rw [if_pos rfl, List.flatMap_append, List.flatMap_cons,
      tokenizeEntryEvents_unreadable tok _ skips dirPath e hFile hRead hKeep]
  · unfold build_prompt_directory
    rw [if_pos rfl, List.flatMap_append, List.flatMap_cons,
      promptEntryEvents_unreadable _ skips dirPath e hFile hRead hKeep]

/-- Witness for C4 at a concrete directory with a single unreadable
file. -/
theorem C4_unreadable_file_continues_witness :
    ((Entry.mk ("f.txt".data) true none).isFile = true ∧
      (Entry.mk ("f.txt".data) true none).readResult = none ∧
      nameIgnored (compileIgnoreGlobs []) (Entry.mk ("f.txt".data) true none).name = false) ∧
      (tokenize_directory true ("d".data) [] [] (fun c => c.length)
          ([] ++ Entry.mk ("f.txt".data) true none :: []) =
        Except.ok (compileWarnings [] ++
          (List.flatMap [] (tokenizeEntryEvents (fun c => c.length) (compileIgnoreGlobs []) [] ("d".data)) ++
            ([Event.warn (readWarn ("d".data) ("f.txt".data)),
              Event.primary (tokenRender ("f.txt".data)
                ((lineFilter [] placeholder).length))] ++
              List.flatMap [] (tokenizeEntryEvents (fun c => c.length) (compileIgnoreGlobs []) [] ("d".data))))) ∧
        build_prompt_directory true ("d".data) [] []
            ([] ++ Entry.mk ("f.txt".data) true none :: []) =
          Except.ok (compileWarnings [] ++
            (List.flatMap [] (promptEntryEvents (compileIgnoreGlobs []) [] ("d".data)) ++
              ([Event.warn (readWarn ("d".data) ("f.txt".data)),
                Event.primary (promptRender ("f.txt".data) (lineFilter [] placeholder))] ++
                List.flatMap [] (promptEntryEvents (compileIgnoreGlobs []) [] ("d".data)))))) :=
  ⟨⟨rfl, rfl, by decide⟩,
    C4_unreadable_file_continues ("d".data) [] [] (fun c => c.length)
      (Entry.mk ("f.txt".data) true none) [] [] rfl rfl (by decide)⟩

/-- C7: invoking either mode on a path that is not a directory produces no
primary output record at all, terminates with exit code 1, and reports an
error message naming the path on the error channel. -/
theorem C7_not_directory_fails (dirPath : List Char)
    (pats skips : List (List Char)) (tok : List Char → Nat) (entries : List Entry) :
    (runMain (tokenize_directory false dirPath pats skips tok entries)).1 = 1 ∧
      primaryOut (runMain (tokenize_directory false dirPath pats skips tok entries)).2 = [] ∧
      dirPath <:+:
        stderrOut (runMain (tokenize_directory false dirPath pats skips tok entries)).2 ∧
      (runMain (build_prompt_directory false dirPath pats skips entries)).1 = 1 ∧
      primaryOut (runMain (build_prompt_directory false dirPath pats skips entries)).2 = [] ∧
      dirPath <:+:
        stderrOut (runMain (build_prompt_directory false dirPath pats skips entries)).2 := by
  refine ⟨rfl, rfl, ?_, rfl, rfl, ?_⟩ <;>
  · refine ⟨"Error: ".data, (" is not a directory.".data) ++ ['\n'], ?_⟩
    simp [runMain, tokenize_directory, build_prompt_directory, stderrOut,
      List.append_assoc]

/-- Standard error content distributes over event concatenation. -/
theorem stderrOut_append (a b : List Event) :
    stderrOut (a ++ b) = stderrOut a ++ stderrOut b := by
  simp [stderrOut, List.filterMap_append, List.flatten_append]

/-- File-destination standard output content distributes over event
concatenation. -/
theorem stdoutOut_true_append (a b : List Event) :
    stdoutOut true (a ++ b) = stdoutOut true a ++ stdoutOut true b := by
  simp [stdoutOut, List.filterMap_append, List.flatten_append]

/-- The pattern-compilation warnings all go to standard error. -/
theorem stderrOut_compileWarnings (pats : List (List Char)) :
    stderrOut (compileWarnings pats) =
      ((pats.filterMap (fun p =>
        if (globCompile p).isSome then none else some (invalidPatternWarn p)))).flatten := by
  induction pats with
  | nil => rfl
  | cons p ps ih =>
    cases h : globCompile p <;>
      simp [compileWarnings, List.filterMap_cons, h, stderrOut, ih] <;>
      simpa [compileWarnings, stderrOut] using ih

/-- The pattern-compilation warnings put nothing on standard output. -/
theorem stdoutOut_true_compileWarnings (pats : List (List Char)) :
    stdoutOut true (compileWarnings pats) = [] := by
  induction pats with
  | nil => rfl
  | cons p ps ih =>
    cases h : globCompile p <;>
      simp [compileWarnings, List.filterMap_cons, h, stdoutOut] <;>
      simpa [compileWarnings, stdoutOut] using ih

/-- Standard error content of one TokenizeDir entry: exactly the
read-failure warning of a surviving unreadable file. -/
theorem stderrOut_tokenizeEntry (tok : List Char → Nat)
    (globs : List (List GlobTok)) (skips : List (List Char))
    (dirPath : List Char) (e : Entry) :
    stderrOut (tokenizeEntryEvents tok globs skips dirPath e) =
      if e.isFile && !nameIgnored globs e.name && e.readResult.isNone
      then readWarn dirPath e.name else [] := by
  rcases e with ⟨name, isFile, rr⟩
  cases isFile <;> cases hig : nameIgnored globs name <;> cases rr <;>
    simp [tokenizeEntryEvents, stderrOut, hig]

/-- Standard error content of one DirPrompt entry. -/
theorem stderrOut_promptEntry (globs : List (List GlobTok))
    (skips : List (List Char)) (dirPath : List Char) (e : Entry) :
    stderrOut (promptEntryEvents globs skips dirPath e) =
      if e.isFile && !nameIgnored globs e.name && e.readResult.isNone
      then readWarn dirPath e.name else [] := by
  rcases e with ⟨name, isFile, rr⟩
  cases isFile <;> cases hig : nameIgnored globs name <;> cases rr <;>
    simp [promptEntryEvents, stderrOut, hig]

/-- With a file destination, the standard-output content of one
TokenizeDir entry is exactly the skip notice of an ignored file. -/
theorem stdoutOut_true_tokenizeEntry (tok : List Char → Nat)
    (globs : List (List GlobTok)) (skips : List (List Char))
    (dirPath : List Char) (e : Entry) :
    stdoutOut true (tokenizeEntryEvents tok globs skips dirPath e) =
      if e.isFile && nameIgnored globs e.name then skipInfo e.name else [] := by
  rcases e with ⟨name, isFile, rr⟩
  cases isFile <;> cases hig : nameIgnored globs name <;> cases rr <;>
    simp [tokenizeEntryEvents, stdoutOut, hig]

/-- With a file destination, the standard-output content of one DirPrompt
entry. -/
theorem stdoutOut_true_promptEntry (globs : List (List GlobTok))
    (skips : List (List Char)) (dirPath : List Char) (e : Entry) :
    stdoutOut true (promptEntryEvents globs skips dirPath e) =
      if e.isFile && nameIgnored globs e.name then skipInfo e.name else [] := by
  rcases e with ⟨name, isFile, rr⟩
  cases isFile <;> cases hig : nameIgnored globs name <;> cases rr <;>
    simp [promptEntryEvents, stdoutOut, hig]

/-- C8 as stated fails on the code: when no output file is given, the
primary destination is standard output, and the informational skip line
is written there by println!, interleaved with the records, so the
diagnostics are not separate from the primary output stream. -/
theorem C8_counterexample :
    build_prompt_directory true ("d".data) ["*.log".data] []
        [⟨"b.log".data, true, some ("x".data)⟩,
          ⟨"a.txt".data, true, some ("hello\n".data)⟩] =
      Except.ok [Event.info (skipInfo ("b.log".data)),
        Event.primary (promptRender ("a.txt".data) ("hello\n".data))] ∧
      ("Skipping ignored file: b.log".data) <:+:
        stdoutOut false [Event.info (skipInfo ("b.log".data)),
          Event.primary (promptRender ("a.txt".data) ("hello\n".data))] ∧
      stdoutOut false [Event.info (skipInfo ("b.log".data)),
          Event.primary (promptRender ("a.txt".data) ("hello\n".data))] ≠
        primaryOut [Event.info (skipInfo ("b.log".data)),
          Event.primary (promptRender ("a.txt".data) ("hello\n".data))] := by
  refine ⟨rfl, by decide, by decide⟩

/-- C8 amended: the warning lines always go to the error channel, never
to the primary destination, and the skip notices go to standard output,
which is separate from the primary output only when the destination is a
file; with standard output as the destination the skip notices are
interleaved into the primary output stream.  Stated here for the file
destination: in every run of either mode, standard error carries exactly
the warning lines and standard output carries exactly the skip
notices. -/
theorem C8_amended_diagnostic_channels (dirPath : List Char)
    (pats skips : List (List Char)) (tok : List Char → Nat)
    (entries : List Entry) :
    tokenize_directory true dirPath pats skips tok entries =
      Except.ok (compileWarnings pats ++
        entries.flatMap (tokenizeEntryEvents tok (compileIgnoreGlobs pats) skips dirPath)) ∧
      stderrOut (compileWarnings pats ++
          entries.flatMap (tokenizeEntryEvents tok (compileIgnoreGlobs pats) skips dirPath)) =
        (specWarnLines dirPath pats entries).flatten ∧
      stdoutOut true (compileWarnings pats ++
          entries.flatMap (tokenizeEntryEvents tok (compileIgnoreGlobs pats) skips dirPath)) =
        (specInfoLines pats entries).flatten ∧
      build_prompt_directory true dirPath pats skips entries =
        Except.ok (compileWarnings pats ++
          entries.flatMap (promptEntryEvents (compileIgnoreGlobs pats) skips dirPath)) ∧
      stderrOut (compileWarnings pats ++
          entries.flatMap (promptEntryEvents (compileIgnoreGlobs pats) skips dirPath)) =
        (specWarnLines dirPath pats entries).flatten ∧
      stdoutOut true (compileWarnings pats ++
          entries.flatMap (promptEntryEvents (compileIgnoreGlobs pats) skips dirPath)) =
        (specInfoLines pats entries).flatten := by
  refine ⟨rfl, ?_, ?_, rfl, ?_, ?_⟩
  · rw [stderrOut_append, stderrOut_compileWarnings, specWarnLines, List.flatten_append]
    congr 1
    induction entries with
    | nil => rfl
    | cons e es ih =>
      rw [List.flatMap_cons, stderrOut_append, stderrOut_tokenizeEntry,
        List.filterMap_cons, ih]
      by_cases hc : (e.isFile && !nameIgnored (compileIgnoreGlobs pats) e.name &&
          e.readResult.isNone) = true
      · simp [hc]
      · simp [Bool.eq_false_iff.mpr hc]
  · rw [stdoutOut_true_append, stdoutOut_true_compileWarnings, specInfoLines]
    rw [List.nil_append]
    induction entries with
    | nil => rfl
    | cons e es ih =>
      rw [List.flatMap_cons, stdoutOut_true_append, stdoutOut_true_tokenizeEntry,
        List.filterMap_cons, ih]
      by_cases hc : (e.isFile && nameIgnored (compileIgnoreGlobs pats) e.name) = true
      · simp [hc]
      · simp [Bool.eq_false_iff.mpr hc]
  · rw [stderrOut_append, stderrOut_compileWarnings, specWarnLines, List.flatten_append]
    congr 1
    induction entries with
    | nil => rfl
    | cons e es ih =>
      rw [List.flatMap_cons, stderrOut_append, stderrOut_promptEntry,
        List.filterMap_cons, ih]
      by_cases hc : (e.isFile && !nameIgnored (compileIgnoreGlobs pats) e.name &&
          e.readResult.isNone) = true
      · simp [hc]
      · simp [Bool.eq_false_iff.mpr hc]
  · rw [stdoutOut_true_append, stdoutOut_true_compileWarnings, specInfoLines]
    rw [List.nil_append]
    induction entries with
    | nil => rfl
    | cons e es ih =>
      rw [List.flatMap_cons, stdoutOut_true_append, stdoutOut_true_promptEntry,
        List.filterMap_cons, ih]
      by_cases hc : (e.isFile && nameIgnored (compileIgnoreGlobs pats) e.name) = true
      · simp [hc]
      · simp [Bool.eq_false_iff.mpr hc]

/-- The compile-time warnings are the rendering of the shared pipeline's
warnings, for any rendering that is the identity on warnings. -/
theorem compileWarnings_eq_map (f : CoreEvent → Event)
    (hf : ∀ s, f (CoreEvent.warn s) = Event.warn s) (pats : List (List Char)) :
    compileWarnings pats =
      (pats.filterMap (fun p =>
        match globCompile p with
        | some _ => none
        | none => some (CoreEvent.warn (invalidPatternWarn p)))).map f := by
  induction pats with
  | nil => rfl
  | cons p ps ih =>
    cases h : globCompile p <;>
      simp [compileWarnings, List.filterMap_cons, h, hf] <;>
      simpa [compileWarnings] using ih

/-- One TokenizeDir entry is the token rendering of the shared pipeline
entry. -/
theorem tokenizeEntryEvents_eq_core (tok : List Char → Nat)
    (globs : List (List GlobTok)) (skips : List (List Char))
    (dirPath : List Char) (e : Entry) :
    tokenizeEntryEvents tok globs skips dirPath e =
      (sharedEntryCore globs skips dirPath e).map (tokenRenderEvent tok) := by
  rcases e with ⟨name, isFile, rr⟩
  cases isFile <;> cases hig : nameIgnored globs name <;> cases rr <;>
    simp [tokenizeEntryEvents, sharedEntryCore, hig, tokenRenderEvent]

/-- One DirPrompt entry is the prompt rendering of the shared pipeline
entry. -/
theorem promptEntryEvents_eq_core (globs : List (List GlobTok))
    (skips : List (List Char)) (dirPath : List Char) (e : Entry) :
    promptEntryEvents globs skips dirPath e =
      (sharedEntryCore globs skips dirPath e).map promptRenderEvent := by
  rcases e with ⟨name, isFile, rr⟩
  cases isFile <;> cases hig : nameIgnored globs name <;> cases rr <;>
    simp [promptEntryEvents, sharedEntryCore, hig, promptRenderEvent]

/-- C10: the two modes are the same filtering pipeline followed by a
mode-specific rendering.  Each mode equals the shared pipeline — same
directory validation, same compiled pattern set with the same fallback
for invalid patterns, same skip-or-keep decision per base name, same
contents-or-placeholder loading, same filtered text — followed only by
the final rendering of the records. -/
theorem C10_modes_share_pipeline (isDir : Bool) (dirPath : List Char)
    (pats skips : List (List Char)) (tok : List Char → Nat)
    (entries : List Entry) :
    tokenize_directory isDir dirPath pats skips tok entries =
      (sharedPipeline isDir dirPath pats skips entries).map
        (List.map (tokenRenderEvent tok)) ∧
      build_prompt_directory isDir dirPath pats skips entries =
        (sharedPipeline isDir dirPath pats skips entries).map
          (List.map promptRenderEvent) := by
  cases isDir with
  | false => exact ⟨rfl, rfl⟩
  | true =>
    have hflatTok : ∀ es : List Entry,
        es.flatMap (tokenizeEntryEvents tok (compileIgnoreGlobs pats) skips dirPath) =
          List.map (tokenRenderEvent tok)
            (es.flatMap (sharedEntryCore (compileIgnoreGlobs pats) skips dirPath)) := by
      intro es
      induction es with
      | nil => rfl
      | cons e es ih =>
        rw [List.flatMap_cons, List.flatMap_cons, List.map_append, ih,
          tokenizeEntryEvents_eq_core]
    have hflatPrompt : ∀ es : List Entry,
        es.flatMap (promptEntryEvents (compileIgnoreGlobs pats) skips dirPath) =
          List.map promptRenderEvent
            (es.flatMap (sharedEntryCore (compileIgnoreGlobs pats) skips dirPath)) := by
      intro es
      induction es with
      | nil => rfl
      | cons e es ih =>
        rw [List.flatMap_cons, List.flatMap_cons, List.map_append, ih,
          promptEntryEvents_eq_core]
    constructor
    · show Except.ok _ = Except.ok _
      congr 1
      rw [List.map_append,
        ← compileWarnings_eq_map (tokenRenderEvent tok) (fun _ => rfl) pats,
        hflatTok entries]
    · show Except.ok _ = Except.ok _
      congr 1
      rw [List.map_append,
        ← compileWarnings_eq_map promptRenderEvent (fun _ => rfl) pats,
        hflatPrompt entries]

end PromptBuilder
